import Mathlib

/-!
Device scan kernels (`catboost/cuda/cuda_util/scan.h`), the length-prefixed block codec
(`library/blockcodecs/common.h`) and the YetiRank pair generation
(`catboost/libs/algo/yetirank_helpers.cpp`).

A shallow embedding of the host-side kernel classes `TScanVectorKernel` and
`TNonNegativeSegmentedScanAndScatterVectorKernel`, of the three public entry points
that launch them, of `TAddLengthCodec`, and of `GenerateYetiRankPairsForQuery`.

Conventions of the embedding:

* device memory is a function from addresses to elements; a buffer pointer is an
  address together with an element count;
* a method that may throw returns an `Except TError _` next to the state it leaves
  behind, so that the effects performed before a throw stay observable;
* every call of a device routine is appended to the trace `TDevice.Calls`, every
  allocation request to `IMemoryManager.Requests`;
* the routines declared in `kernel/scan.cuh` are not part of the sources at hand;
  the kernel classes take them as a parameter (`TDeviceRoutines`);
* counts are natural numbers, the casts of the source are explicit (`ui32`, `ui64`);
* floating-point arithmetic, the random generator and the library sort are parameters of
  the pair generation (`TFloatArithmetic`, `TFastRng64`, `SortBy`).
-/

set_option autoImplicit false

namespace NKernel

/-- The status code a device routine returns (`cudaError_t`). -/
abbrev cudaError_t := Nat

/-- The status `cudaSuccess`. -/
def cudaSuccess : cudaError_t := 0

/-- The context `TScanKernelContext<T>`: the scratch size and the handle of the scratch
region. -/
structure TScanKernelContext where
  NumParts : Nat
  PartResults : Nat
  deriving DecidableEq, Repr

end NKernel

/-- The errors a scan call can surface. `ConfigurationError` is what `CB_ENSURE` throws,
`DeviceError` what `CUDA_SAFE_CALL` throws (it wraps the status), `ResourceExhausted` what
a failed allocation throws. -/
inductive TError where
  | ConfigurationError (message : String)
  | DeviceError (status : NKernel.cudaError_t)
  | ResourceExhausted
  deriving DecidableEq, Repr

/-- Modelled from the spec: `CB_ENSURE(condition, message)` of
`catboost/libs/helpers/exception.h`, which is not among the sources: it throws the
configuration error carrying `message` when `condition` is false and does nothing
otherwise. -/
def CB_ENSURE (condition : Bool) (message : String) : Except TError Unit :=
  if condition then .ok () else .error (.ConfigurationError message)

/-- Modelled from the spec: `CUDA_SAFE_CALL(statement)`, whose definition is not among the
sources: a status other than success is thrown as a fatal error wrapping the
device-reported status code. -/
def CUDA_SAFE_CALL (errorCode : NKernel.cudaError_t) : Except TError Unit :=
  if errorCode = NKernel.cudaSuccess then .ok () else .error (.DeviceError errorCode)

/-- The cast `(ui32)x` of a 64-bit count. -/
def ui32 (x : Nat) : Nat := x % 2 ^ 32

/-- The view `TCudaBufferPtr<T>`, declared in `cuda_lib/cuda_kernel_buffer.h`, which is not
among the sources: `Get()` is the device address of the first element, `Size()` the element
count, a 64-bit count that the kernels narrow with an explicit `(ui32)` cast. -/
structure TCudaBufferPtr where
  Get : Nat
  Size : Nat
  deriving DecidableEq, Repr

/-- The stream `TCudaStream`; `GetStream()` is the raw stream handle. -/
structure TCudaStream where
  GetStream : Nat
  deriving DecidableEq, Repr

/-- One invocation of a device routine of `kernel/scan.cuh`, with the arguments it was
given, in the order of the call. -/
inductive TDeviceCall where
  | ScanVector (input output size : Nat) (inclusive : Bool)
      (context : NKernel.TScanKernelContext) (stream : Nat)
  | SegmentedScanNonNegativeVector (input output size : Nat) (inclusive : Bool)
      (context : NKernel.TScanKernelContext) (stream : Nat)
  | SegmentedScanAndScatterNonNegativeVector (input indices output size : Nat)
      (inclusive : Bool) (context : NKernel.TScanKernelContext) (stream : Nat)
  deriving DecidableEq, Repr

/-- The state of one device: the contents of its memory and the trace of the device
routines invoked on it so far, oldest first. -/
structure TDevice (T : Type) where
  Memory : Nat → T
  Calls : List TDeviceCall

/-- The device routines declared in `kernel/scan.cuh`, taken as a parameter. Each scan
routine maps the memory before the call to the reported status and the memory after it;
the sizing function takes the `ui32` count and the inclusive flag. -/
structure TDeviceRoutines (T : Type) where
  ScanVectorTempSize : Nat → Bool → Nat
  ScanVector : Nat → Nat → Nat → Bool → NKernel.TScanKernelContext → Nat →
    (Nat → T) → NKernel.cudaError_t × (Nat → T)
  SegmentedScanNonNegativeVector : Nat → Nat → Nat → Bool → NKernel.TScanKernelContext → Nat →
    (Nat → T) → NKernel.cudaError_t × (Nat → T)
  SegmentedScanAndScatterNonNegativeVector : Nat → Nat → Nat → Nat → Bool →
    NKernel.TScanKernelContext → Nat → (Nat → T) → NKernel.cudaError_t × (Nat → T)

/-- Running a device routine on a device: the call is recorded, the memory becomes what
the routine leaves, and the status is handed back. -/
def TDevice.Invoke {T : Type} (device : TDevice T) (call : TDeviceCall)
    (routine : (Nat → T) → NKernel.cudaError_t × (Nat → T)) : NKernel.cudaError_t × TDevice T :=
  ((routine device.Memory).1,
    { Memory := (routine device.Memory).2, Calls := device.Calls ++ [call] })

/-- The allocator `IMemoryManager`, taken as a parameter: `Grant history count` is the
handle the allocator returns for a request of `count` bytes after the requests `history`,
or `none` when it is exhausted. `Requests` is the trace of the byte counts asked for. -/
structure IMemoryManager where
  Requests : List Nat
  Grant : List Nat → Nat → Option Nat

/-- The call `memoryManager.Allocate<char>(count).Get()`. -/
def IMemoryManager.Allocate (memoryManager : IMemoryManager) (count : Nat) :
    Except TError Nat × IMemoryManager :=
  (match memoryManager.Grant memoryManager.Requests count with
    | some handle => .ok handle
    | none => .error .ResourceExhausted,
    { memoryManager with Requests := memoryManager.Requests ++ [count] })

namespace NKernelHost

/-- The kernel class `TScanVectorKernel<T>`; `TScanVectorKernel.mk input output inclusive
nonNegativeSegmented` is its four-argument constructor. -/
structure TScanVectorKernel where
  Input : TCudaBufferPtr
  Output : TCudaBufferPtr
  Inclusive : Bool
  IsNonNegativeSegmentedScan : Bool
  deriving DecidableEq, Repr

/-- The method `TScanVectorKernel::PrepareContext`. -/
def TScanVectorKernel.PrepareContext {T : Type} (routines : TDeviceRoutines T)
    (kernel : TScanVectorKernel) (memoryManager : IMemoryManager) :
    Except TError NKernel.TScanKernelContext × IMemoryManager :=
  let NumParts := routines.ScanVectorTempSize (ui32 kernel.Input.Size) kernel.Inclusive
  let allocation := memoryManager.Allocate NumParts
  match allocation.1 with
  | .ok handle => (.ok { NumParts := NumParts, PartResults := handle }, allocation.2)
  | .error e => (.error e, allocation.2)

/-- The method `TScanVectorKernel::Run`. -/
def TScanVectorKernel.Run {T : Type} (routines : TDeviceRoutines T)
    (kernel : TScanVectorKernel) (stream : TCudaStream) (context : NKernel.TScanKernelContext)
    (device : TDevice T) : Except TError Unit × TDevice T :=
  if kernel.IsNonNegativeSegmentedScan then
    match CB_ENSURE kernel.Inclusive
        "Error: fast exclusive scan currently not working via simple operator transformation" with
    | .error e => (.error e, device)
    | .ok _ =>
      let call := device.Invoke
        (.SegmentedScanNonNegativeVector kernel.Input.Get kernel.Output.Get
          (ui32 kernel.Input.Size) kernel.Inclusive context stream.GetStream)
        (routines.SegmentedScanNonNegativeVector kernel.Input.Get kernel.Output.Get
          (ui32 kernel.Input.Size) kernel.Inclusive context stream.GetStream)
      (CUDA_SAFE_CALL call.1, call.2)
  else
    let call := device.Invoke
      (.ScanVector kernel.Input.Get kernel.Output.Get
        (ui32 kernel.Input.Size) kernel.Inclusive context stream.GetStream)
      (routines.ScanVector kernel.Input.Get kernel.Output.Get
        (ui32 kernel.Input.Size) kernel.Inclusive context stream.GetStream)
    (CUDA_SAFE_CALL call.1, call.2)

/-- The kernel class `TNonNegativeSegmentedScanAndScatterVectorKernel<T>`; its constructor
takes `input indices output inclusive`. -/
structure TNonNegativeSegmentedScanAndScatterVectorKernel where
  Input : TCudaBufferPtr
  Indices : TCudaBufferPtr
  Output : TCudaBufferPtr
  Inclusive : Bool
  deriving DecidableEq, Repr

/-- The method `TNonNegativeSegmentedScanAndScatterVectorKernel::PrepareContext`. -/
def TNonNegativeSegmentedScanAndScatterVectorKernel.PrepareContext {T : Type}
    (routines : TDeviceRoutines T)
    (kernel : TNonNegativeSegmentedScanAndScatterVectorKernel)
    (memoryManager : IMemoryManager) :
    Except TError NKernel.TScanKernelContext × IMemoryManager :=
  let NumParts := routines.ScanVectorTempSize (ui32 kernel.Input.Size) kernel.Inclusive
  let allocation := memoryManager.Allocate NumParts
  match allocation.1 with
  | .ok handle => (.ok { NumParts := NumParts, PartResults := handle }, allocation.2)
  | .error e => (.error e, allocation.2)

/-- The method `TNonNegativeSegmentedScanAndScatterVectorKernel::Run`: the device routine
is called as a plain statement, its status is not looked at. -/
def TNonNegativeSegmentedScanAndScatterVectorKernel.Run {T : Type}
    (routines : TDeviceRoutines T)
    (kernel : TNonNegativeSegmentedScanAndScatterVectorKernel)
    (stream : TCudaStream) (context : NKernel.TScanKernelContext)
    (device : TDevice T) : Except TError Unit × TDevice T :=
  let call := device.Invoke
    (.SegmentedScanAndScatterNonNegativeVector kernel.Input.Get kernel.Indices.Get
      kernel.Output.Get (ui32 kernel.Input.Size) kernel.Inclusive context stream.GetStream)
    (routines.SegmentedScanAndScatterNonNegativeVector kernel.Input.Get kernel.Indices.Get
      kernel.Output.Get (ui32 kernel.Input.Size) kernel.Inclusive context stream.GetStream)
  (.ok (), call.2)

end NKernelHost

/-- Modelled from the spec: the distributed buffer `TCudaBuffer<T, TMapping>` of
`cuda_lib/cuda_buffer.h`, which is not among the sources: one shard view per device, the
device id being the position in `Shards`. -/
structure TCudaBuffer where
  Shards : List TCudaBufferPtr
  deriving DecidableEq, Repr

/-- Modelled from the spec: the shard of the buffer on device `dev` (an empty view where
the buffer has none). -/
def TCudaBuffer.At (buffer : TCudaBuffer) (dev : Nat) : TCudaBufferPtr :=
  buffer.Shards.getD dev { Get := 0, Size := 0 }

/-- Modelled from the spec: `NonEmptyDevices()`, the devices holding a non-empty shard of
the buffer. -/
def TCudaBuffer.NonEmptyDevices (buffer : TCudaBuffer) : List Nat :=
  (List.range buffer.Shards.length).filter (fun dev => (buffer.At dev).Size != 0)

/-- Modelled from the spec: a kernel enqueued on a device, on the stream with the given
id. -/
structure TKernelLaunch (TKernel : Type) where
  Device : Nat
  StreamId : Nat
  Kernel : TKernel
  deriving DecidableEq, Repr

/-- Modelled from the spec: the dispatcher `LaunchKernels<TKernel>`, which is not among the
sources: on every device of `devices` it enqueues, on the stream `streamId`, the kernel
constructed from that device's shards of the arguments (`makeKernel dev`), each device
independently of the others. The result is the list of the launches enqueued. -/
def LaunchKernels {TKernel : Type} (devices : List Nat) (streamId : Nat)
    (makeKernel : Nat → TKernel) : List (TKernelLaunch TKernel) :=
  devices.map (fun dev => { Device := dev, StreamId := streamId, Kernel := makeKernel dev })

/-- The public entry point `ScanVector` (in the source `inclusive` defaults to `false` and
`streamId` to `0`). -/
def ScanVector (input output : TCudaBuffer) (inclusive : Bool) (streamId : Nat) :
    List (TKernelLaunch NKernelHost.TScanVectorKernel) :=
  LaunchKernels input.NonEmptyDevices streamId
    (fun dev => NKernelHost.TScanVectorKernel.mk (input.At dev) (output.At dev) inclusive false)

/-- The public entry point `InclusiveSegmentedScanNonNegativeVector` (in the source
`streamId` defaults to `0`). -/
def InclusiveSegmentedScanNonNegativeVector (input output : TCudaBuffer) (streamId : Nat) :
    List (TKernelLaunch NKernelHost.TScanVectorKernel) :=
  LaunchKernels input.NonEmptyDevices streamId
    (fun dev => NKernelHost.TScanVectorKernel.mk (input.At dev) (output.At dev) true true)

/-- The public entry point `SegmentedScanAndScatterNonNegativeVector` (in the source
`inclusive` defaults to `false` and `streamId` to `0`). -/
def SegmentedScanAndScatterNonNegativeVector (inputWithSignMasks indices output : TCudaBuffer)
    (inclusive : Bool) (streamId : Nat) :
    List (TKernelLaunch NKernelHost.TNonNegativeSegmentedScanAndScatterVectorKernel) :=
  LaunchKernels inputWithSignMasks.NonEmptyDevices streamId
    (fun dev => NKernelHost.TNonNegativeSegmentedScanAndScatterVectorKernel.mk
      (inputWithSignMasks.At dev) (indices.At dev) (output.At dev) inclusive)

/-- The size argument a recorded device call was given. -/
def TDeviceCall.Size : TDeviceCall → Nat
  | .ScanVector _ _ size _ _ _ => size
  | .SegmentedScanNonNegativeVector _ _ size _ _ _ => size
  | .SegmentedScanAndScatterNonNegativeVector _ _ _ size _ _ _ => size

/-- The inclusive flag a recorded device call was given. -/
def TDeviceCall.Inclusive : TDeviceCall → Bool
  | .ScanVector _ _ _ inclusive _ _ => inclusive
  | .SegmentedScanNonNegativeVector _ _ _ inclusive _ _ => inclusive
  | .SegmentedScanAndScatterNonNegativeVector _ _ _ _ inclusive _ _ => inclusive

namespace NKernel

/-- Modelled from the spec: the inclusive sum at position `i`, the running total of
`a 0, ..., a i` accumulated from the left. -/
def InclusiveSum {T : Type} [Add T] (a : Nat → T) : Nat → T
  | 0 => a 0
  | i + 1 => InclusiveSum a i + a (i + 1)

/-- Modelled from the spec: the exclusive sum at position `i`, the running total of the
elements before position `i` accumulated from the left, `0` at position `0`. -/
def ExclusiveSum {T : Type} [Add T] [Zero T] (a : Nat → T) : Nat → T
  | 0 => 0
  | i + 1 => ExclusiveSum a i + a i

/-- Modelled from the spec: the device routine `NKernel::ScanVector` of `kernel/scan.cuh`,
which is not among the sources, in a fault-free execution: for each position `i < size` the
output holds the sum of `input[0..i]` in inclusive mode and of `input[0..i-1]` in exclusive
mode (`0` at position `0`), with the addition of the element type; the rest of the memory
is untouched. The input is read as it was before the call. -/
def ScanVector {T : Type} [Add T] [Zero T] (input output size : Nat) (inclusive : Bool)
    (_context : TScanKernelContext) (_stream : Nat) (memory : Nat → T) :
    cudaError_t × (Nat → T) :=
  (cudaSuccess, fun address =>
    if output ≤ address ∧ address < output + size then
      if inclusive then InclusiveSum (fun j => memory (input + j)) (address - output)
      else ExclusiveSum (fun j => memory (input + j)) (address - output)
    else memory address)

/-- Modelled from the spec: whether an element is a segment head, that is, its sign is
negative. The sign of a zero is implementation-defined, `signOfZero` says whether it counts
as negative. -/
def IsSegmentHead (signOfZero : Bool) (x : Int) : Bool :=
  decide (x < 0) || (decide (x = 0) && signOfZero)

/-- Modelled from the spec: the running sum of the segmented scan after the elements
`a 0, ..., a (k - 1)`: reset to the magnitude of the element at a segment head, otherwise
increased by the magnitude. -/
def SegmentedRunningSum (signOfZero : Bool) (a : Nat → Int) : Nat → Int
  | 0 => 0
  | k + 1 =>
    if IsSegmentHead signOfZero (a k) then |a k|
    else SegmentedRunningSum signOfZero a k + |a k|

/-- Modelled from the spec: the device routine `NKernel::SegmentedScanNonNegativeVector` of
`kernel/scan.cuh`, which is not among the sources, in a fault-free execution on integer
elements: in inclusive mode the output at each position `i < size` holds the sign-stripped
running sum of the segment containing `i`. The spec gives the routine no exclusive
semantics: `exclusive` is whatever the routine does then. -/
def SegmentedScanNonNegativeVector (signOfZero : Bool)
    (exclusive : (Nat → Int) → cudaError_t × (Nat → Int))
    (input output size : Nat) (inclusive : Bool)
    (_context : TScanKernelContext) (_stream : Nat) (memory : Nat → Int) :
    cudaError_t × (Nat → Int) :=
  if inclusive then
    (cudaSuccess, fun address =>
      if output ≤ address ∧ address < output + size then
        SegmentedRunningSum signOfZero (fun j => memory (input + j)) (address - output + 1)
      else memory address)
  else exclusive memory

end NKernel

namespace NBlockCodecs

/-- A byte string (`TData`): the bytes of the region the view covers. -/
abbrev TData := List (Fin 256)

/-- The errors of the block codecs: `TDataError` with its message, and the errors
(`TDecompressError`) a base codec throws. -/
inductive TCodecError where
  | TDataError (message : String)
  | TDecompressError (code : Int)
  deriving DecidableEq, Repr

/-- The base codec `T` of `TAddLengthCodec<T>`, taken as a parameter. `DoCompress input`
is the bytes the base codec writes to its output, the count it returns being their number;
`DoDecompress input len` is the bytes it writes to its output, or the error it throws. -/
structure TBaseCodec where
  DoMaxCompressedLength : Nat → Nat
  DoCompress : TData → TData
  DoDecompress : TData → Nat → Except TCodecError TData

/-- The `count` low-order bytes of `value`, least significant first. -/
def LittleEndianBytes : Nat → Nat → TData
  | 0, _ => []
  | count + 1, value =>
    ⟨value % 256, Nat.mod_lt _ (by decide)⟩ :: LittleEndianBytes count (value / 256)

/-- The number whose little-endian bytes are `bytes`. -/
def LittleEndianValue : TData → Nat
  | [] => 0
  | b :: rest => b.val + 256 * LittleEndianValue rest

/-- The cast `(ui64)x`. -/
def ui64 (x : Nat) : Nat := x % 2 ^ 64

/-- The store `WriteUnaligned(ptr, value)` of a `ui64` on a little-endian host: the eight
bytes written. -/
def WriteUnaligned (value : Nat) : TData := LittleEndianBytes 8 (ui64 value)

/-- The load `ReadUnaligned<ui64>(ptr)` on a little-endian host, from the first eight
bytes of `input`. -/
def ReadUnaligned (input : TData) : Nat := LittleEndianValue (input.take 8)

/-- What a call of `Decompress` leaves behind: its return value or the error thrown, the
bytes written to `out`, and the calls of the base decompressor it made (input and `len`). -/
structure TDecompressResult where
  Result : Except TCodecError Nat
  Written : TData
  BaseCalls : List (TData × Nat)

namespace TAddLengthCodec

/-- The check `TAddLengthCodec::Check`; `sizeof(ui64)` is 8. -/
def Check (input : TData) : Except TCodecError Unit :=
  if input.length < 8 then .error (.TDataError "too small input") else .ok ()

/-- The method `TAddLengthCodec::DecompressedLength`. -/
def DecompressedLength (input : TData) : Except TCodecError Nat :=
  match Check input with
  | .error e => .error e
  | .ok _ => .ok (ReadUnaligned input)

/-- The method `TAddLengthCodec::MaxCompressedLength`; the sum is a `size_t` and wraps at
`2 ^ 64`. -/
def MaxCompressedLength (base : TBaseCodec) (input : TData) : Nat :=
  (base.DoMaxCompressedLength input.length + 8) % 2 ^ 64

/-- The method `TAddLengthCodec::Compress`: the bytes written to `out` and the count
returned, a `size_t` sum that wraps at `2 ^ 64`. -/
def Compress (base : TBaseCodec) (input : TData) : TData × Nat :=
  let header := WriteUnaligned input.length
  let body := base.DoCompress (if input.isEmpty then [] else input)
  (header ++ body, (body.length + 8) % 2 ^ 64)

/-- The method `TAddLengthCodec::Decompress`. -/
def Decompress (base : TBaseCodec) (input : TData) : TDecompressResult :=
  match Check input with
  | .error e => { Result := .error e, Written := [], BaseCalls := [] }
  | .ok _ =>
    let len := ReadUnaligned input
    if len = 0 then { Result := .ok 0, Written := [], BaseCalls := [] }
    else
      match base.DoDecompress (input.drop 8) len with
      | .ok written =>
        { Result := .ok len, Written := written, BaseCalls := [(input.drop 8, len)] }
      | .error e => { Result := .error e, Written := [], BaseCalls := [(input.drop 8, len)] }

end TAddLengthCodec

end NBlockCodecs

/-! ## YetiRank pair generation (`catboost/libs/algo/yetirank_helpers.cpp`) -/

/-- The floating-point arithmetic used by the pair generation, taken as a parameter: `F`
stands for `float`, `D` for `double`. `Zero` is `0.0f`, `NearOne` the literal `1.000001f`,
`One` and `Ten` the doubles `1` and `10`; `Greater` is `>` on `float`, `NotEqual` is `!=`,
`OfInt` the conversion of an `int` operand, `ToDouble` and `ToFloat` the conversions between
the two types, `Mul` and `GreaterD` are `*` and `>` on `double`. How the operations round
is left open; two facts of the arithmetic are part of the parameter: `0.0f / p` does not
differ from `0` for an `int` `p ≥ 1`, and `a > b` excludes `b > a`. -/
structure TFloatArithmetic (F D : Type) where
  Zero : F
  NearOne : F
  Add : F → F → F
  Sub : F → F → F
  Div : F → F → F
  Abs : F → F
  Greater : F → F → Bool
  NotEqual : F → F → Bool
  OfInt : Int → F
  ToDouble : F → D
  ToFloat : D → F
  One : D
  Ten : D
  Mul : D → D → D
  GreaterD : D → D → Bool
  zero_div_int : ∀ p : Int, 1 ≤ p → NotEqual (Div Zero (OfInt p)) Zero = false
  greater_asymm : ∀ a b : F, Greater a b = true → Greater b a = false

/-- The generator `TFastRng64`, taken as a parameter: `Seed` is its constructor from a
seed, `GenRandReal1` draws a number and advances the generator. -/
structure TFastRng64 (G D : Type) where
  Seed : Nat → G
  GenRandReal1 : G → D × G

/-- The record `TCompetitor` as `GenerateYetiRankPairsForQuery` fills it: the index of the
losing document and the weight of the pair. -/
structure TCompetitor (F : Type) where
  Id : Nat
  Weight : F

/-- The failure of `TVector::resize` on a negative size, which the conversion to `size_t`
turns into a size beyond every vector. -/
inductive TVectorError where
  | LengthError
  deriving DecidableEq, Repr

/-- The statement `competitorsWeights[winner][loser] += pairWeight`. -/
def AddPairWeight {F D : Type} (fp : TFloatArithmetic F D) (competitorsWeights : Nat → Nat → F)
    (winner loser : Nat) (pairWeight : F) : Nat → Nat → F :=
  fun i j =>
    if i = winner ∧ j = loser then fp.Add (competitorsWeights i j) pairWeight
    else competitorsWeights i j

/-- The loop over `docId` that bootstraps the approxes (source lines 26-30): each approx is
multiplied by `uniformValue / (1.000001f - uniformValue)` for a fresh draw `uniformValue`.
The state is the vector `bootstrappedApprox` and the generator. -/
def BootstrapApproxes {F D G : Type} (fp : TFloatArithmetic F D) (rng : TFastRng64 G D)
    (querySize : Nat) (state : (Nat → D) × G) : (Nat → D) × G :=
  (List.range querySize).foldl
    (fun st docId =>
      let draw := rng.GenRandReal1 st.2
      let uniformValue := fp.ToFloat draw.1
      (Function.update st.1 docId
        (fp.Mul (st.1 docId)
          (fp.ToDouble (fp.Div uniformValue (fp.Sub fp.NearOne uniformValue)))),
        draw.2))
    state

/-- One pass of the loop over adjacent documents (the body of source lines 37-49) for
`docId`, on the state `(decayCoefficient, competitorsWeights)`; `a < b` on `float` is read
as `b > a`. -/
def PairStep {F D : Type} (fp : TFloatArithmetic F D) (relevs : Nat → F) (indices : List Nat)
    (decaySpeed : D) (state : D × (Nat → Nat → F)) (docId : Nat) : D × (Nat → Nat → F) :=
  let firstCandidate := indices.getD (docId - 1) 0
  let secondCandidate := indices.getD docId 0
  let pairWeight := fp.ToFloat (fp.Mul (fp.Mul fp.Ten state.1)
    (fp.ToDouble (fp.Abs (fp.Sub (relevs firstCandidate) (relevs secondCandidate)))))
  (fp.Mul state.1 decaySpeed,
    if fp.Greater (relevs firstCandidate) (relevs secondCandidate) then
      AddPairWeight fp state.2 firstCandidate secondCandidate pairWeight
    else if fp.Greater (relevs secondCandidate) (relevs firstCandidate) then
      AddPairWeight fp state.2 secondCandidate firstCandidate pairWeight
    else state.2)

/-- The loop over adjacent documents of the sorted order (source lines 36-49), for `docId`
from `1` to `querySize - 1`, with `decayCoefficient` starting at `1`. -/
def AccumulatePairWeights {F D : Type} (fp : TFloatArithmetic F D) (relevs : Nat → F)
    (indices : List Nat) (querySize : Nat) (decaySpeed : D)
    (competitorsWeights : Nat → Nat → F) : Nat → Nat → F :=
  ((List.range' 1 (querySize - 1)).foldl (PairStep fp relevs indices decaySpeed)
    (fp.One, competitorsWeights)).2

/-- One permutation (the body of source lines 23-50), on the state
`(rand, competitorsWeights)`. `SortBy` is the library routine `Sort` with its comparator,
taken as a parameter (the name `Sort` is reserved here). -/
def PermutationStep {F D G : Type} (fp : TFloatArithmetic F D) (rng : TFastRng64 G D)
    (SortBy : (Nat → Nat → Bool) → List Nat → List Nat)
    (relevs : Nat → F) (expApproxes : Nat → D) (querySize : Nat) (decaySpeed : D)
    (state : G × (Nat → Nat → F)) (_permutationIndex : Nat) : G × (Nat → Nat → F) :=
  let bootstrapped := BootstrapApproxes fp rng querySize (expApproxes, state.1)
  let indices := SortBy (fun i j => fp.GreaterD (bootstrapped.1 i) (bootstrapped.1 j))
    (List.range querySize)
  (bootstrapped.2, AccumulatePairWeights fp relevs indices querySize decaySpeed state.2)

/-- The final double loop (source lines 53-60): for every winner, in the order of the
loser index, the competitors whose averaged weight differs from `0`. -/
def CollectCompetitors {F D : Type} (fp : TFloatArithmetic F D)
    (competitorsWeights : Nat → Nat → F) (querySize : Nat) (permutationCount : Int) :
    List (List (TCompetitor F)) :=
  (List.range querySize).map (fun winnerIndex =>
    (List.range querySize).filterMap (fun loserIndex =>
      let competitorsWeight :=
        fp.Div (competitorsWeights winnerIndex loserIndex) (fp.OfInt permutationCount)
      if fp.NotEqual competitorsWeight fp.Zero then
        some { Id := loserIndex, Weight := competitorsWeight }
      else none))

/-- The function `GenerateYetiRankPairsForQuery`: the value it leaves in `*competitors`,
whose previous content it clears. `relevs` and `expApproxes` are the arrays behind the two
pointers. -/
def GenerateYetiRankPairsForQuery {F D G : Type} (fp : TFloatArithmetic F D)
    (rng : TFastRng64 G D) (SortBy : (Nat → Nat → Bool) → List Nat → List Nat)
    (relevs : Nat → F) (expApproxes : Nat → D) (querySize permutationCount : Int)
    (decaySpeed : D) (randomSeed : Nat) (_competitors : List (List (TCompetitor F))) :
    Except TVectorError (List (List (TCompetitor F))) :=
  if querySize < 0 then .error .LengthError
  else
    let competitorsWeights :=
      ((List.range permutationCount.toNat).foldl
        (PermutationStep fp rng SortBy relevs expApproxes querySize.toNat decaySpeed)
        (rng.Seed randomSeed, fun _ _ => fp.Zero)).2
    .ok (CollectCompetitors fp competitorsWeights querySize.toNat permutationCount)

/-- The invariant of the weight matrix: an entry is still `0.0f` unless its row document is
more relevant than its column document. -/
def RespectsRelevance {F D : Type} (fp : TFloatArithmetic F D) (relevs : Nat → F)
    (competitorsWeights : Nat → Nat → F) : Prop :=
  ∀ i j, fp.Greater (relevs i) (relevs j) = false → competitorsWeights i j = fp.Zero

/-! ## Sample routines, devices and codecs -/

/-- Sample device routines: every routine reports `status` and leaves the memory as it is,
and the sizing function returns the count it is given. -/
def SampleRoutines (status : NKernel.cudaError_t) : TDeviceRoutines Int where
  ScanVectorTempSize := fun size _ => size
  ScanVector := fun _ _ _ _ _ _ memory => (status, memory)
  SegmentedScanNonNegativeVector := fun _ _ _ _ _ _ memory => (status, memory)
  SegmentedScanAndScatterNonNegativeVector := fun _ _ _ _ _ _ _ memory => (status, memory)

/-- A sample device on which no routine has run yet: its memory holds `values` from
address `0` on and `fill` at every other address. -/
def SampleDevice (values : List Int) (fill : Int) : TDevice Int where
  Memory := fun address => values.getD address fill
  Calls := []

/-- A sample base codec that stores its input as it is. -/
def SampleCodec : NBlockCodecs.TBaseCodec where
  DoMaxCompressedLength := fun length => length
  DoCompress := fun input => input
  DoDecompress := fun input _ => .ok input

/-- A sample arithmetic: exact integer arithmetic in place of both floating-point types. -/
def SampleArithmetic : TFloatArithmetic Int Int where
  Zero := 0
  NearOne := 1
  Add := fun a b => a + b
  Sub := fun a b => a - b
  Div := fun a b => a / b
  Abs := fun a => |a|
  Greater := fun a b => decide (b < a)
  NotEqual := fun a b => decide (a ≠ b)
  OfInt := fun p => p
  ToDouble := fun a => a
  ToFloat := fun a => a
  One := 1
  Ten := 10
  Mul := fun a b => a * b
  GreaterD := fun a b => decide (b < a)
  zero_div_int := fun p _ => by simp
  greater_asymm := fun a b h => by
    simp only [decide_eq_true_eq, decide_eq_false_iff_not, not_lt] at h ⊢
    exact le_of_lt h

/-- A sample generator: a linear congruential sequence. -/
def SampleRng : TFastRng64 Nat Int where
  Seed := fun seed => seed
  GenRandReal1 := fun state => (((state % 7 : Nat) : Int) + 2, (5 * state + 3) % 64)

/-- A sample sort: insertion sort by the comparator. -/
def SampleSort (compare : Nat → Nat → Bool) (indices : List Nat) : List Nat :=
  indices.insertionSort (fun i j => compare i j = true)

/-- A sample base codec that stores its input as it is and whose decompressor rejects
every input with the data error `too small input`. -/
def SampleRejectingCodec : NBlockCodecs.TBaseCodec where
  DoMaxCompressedLength := fun length => length
  DoCompress := fun input => input
  DoDecompress := fun _ _ => .error (.TDataError "too small input")

open NKernelHost

/-! ## The scan kernels -/

/-- C1: for every input buffer, output buffer, stream, context, device state and device
routines, `Run` on the kernel built with `inclusive = false`, `nonNegativeSegmented = true`
fails with the configuration error of `CB_ENSURE`, and `Run` on the kernel built with
`inclusive = true`, `nonNegativeSegmented = true` raises no configuration error. -/
theorem C1_exclusive_segmented_scan_is_rejected {T : Type} (routines : TDeviceRoutines T)
    (input output : TCudaBufferPtr) (stream : TCudaStream)
    (context : NKernel.TScanKernelContext) (device : TDevice T) :
    ((TScanVectorKernel.mk input output false true).Run routines stream context device).1
        = .error (.ConfigurationError
          "Error: fast exclusive scan currently not working via simple operator transformation")
      ∧ ∀ message : String,
        ((TScanVectorKernel.mk input output true true).Run routines stream context device).1
          ≠ .error (.ConfigurationError message) := by
  constructor
  · rfl
  · intro message
    simp only [TScanVectorKernel.Run, CB_ENSURE, CUDA_SAFE_CALL]
    split_ifs <;> simp

/-- The left-accumulated inclusive running total is the sum of the first `i + 1` elements. -/
theorem NKernel.InclusiveSum_eq_sum {T : Type} [AddCommMonoid T] (a : Nat → T) (i : Nat) :
    NKernel.InclusiveSum a i = ∑ j ∈ Finset.range (i + 1), a j := by
  induction i with
  | zero => simp [NKernel.InclusiveSum]
  | succ i ih => rw [NKernel.InclusiveSum, ih, Finset.sum_range_succ _ (i + 1)]

/-- The left-accumulated exclusive running total is the sum of the first `i` elements. -/
theorem NKernel.ExclusiveSum_eq_sum {T : Type} [AddCommMonoid T] (a : Nat → T) (i : Nat) :
    NKernel.ExclusiveSum a i = ∑ j ∈ Finset.range i, a j := by
  induction i with
  | zero => simp [NKernel.ExclusiveSum]
  | succ i ih => rw [NKernel.ExclusiveSum, ih, Finset.sum_range_succ]

/-- A count below `2 ^ 32` survives the cast to `ui32`. -/
theorem ui32_of_lt {x : Nat} (h : x < 2 ^ 32) : ui32 x = x := Nat.mod_eq_of_lt h

/-- What `Run` leaves in the output region when the plain device routine is the one
modelled from the spec. -/
theorem NKernelHost.TScanVectorKernel.Run_plain_memory {T : Type} [AddCommMonoid T]
    (routines : TDeviceRoutines T) (input output : TCudaBufferPtr) (inclusive : Bool)
    (stream : TCudaStream) (context : NKernel.TScanKernelContext) (device : TDevice T)
    (i : Nat) (hi : i < ui32 input.Size) :
    ((TScanVectorKernel.mk input output inclusive false).Run
        { routines with ScanVector := NKernel.ScanVector } stream context device).2.Memory
        (output.Get + i)
      = if inclusive then ∑ j ∈ Finset.range (i + 1), device.Memory (input.Get + j)
        else ∑ j ∈ Finset.range i, device.Memory (input.Get + j) := by
  have hmem : output.Get ≤ output.Get + i ∧ output.Get + i < output.Get + ui32 input.Size :=
    ⟨Nat.le_add_right _ _, Nat.add_lt_add_left hi _⟩
  simp only [TScanVectorKernel.Run, TDevice.Invoke, NKernel.ScanVector, hmem, and_self,
    if_true, Nat.add_sub_cancel_left, Bool.false_eq_true, if_false]
  cases inclusive
  · simp [NKernel.ExclusiveSum_eq_sum]
  · simp [NKernel.InclusiveSum_eq_sum]

/-- C2 (amended): for every array of fewer than `2 ^ 32` elements, `Run` on the plain scan
kernel (`nonNegativeSegmented = false`) with a fault-free device routine returns normally
and leaves `output[i] = A[0] + ... + A[i]` for every `i < n` in inclusive mode, and
`output[i] = A[0] + ... + A[i-1]` (so `output[0] = 0`) in exclusive mode; hence the
exclusive output at `i` is the inclusive output at `i - 1` for every `0 < i < n`. The public
`ScanVector` launches exactly such kernels, one for each non-empty shard. -/
theorem C2_plain_scan_yields_running_sums {T : Type} [AddCommMonoid T]
    (routines : TDeviceRoutines T) (input output : TCudaBufferPtr)
    (stream : TCudaStream) (context : NKernel.TScanKernelContext) (device : TDevice T)
    (inputBuffer outputBuffer : TCudaBuffer) (streamId : Nat)
    (hsize : input.Size < 2 ^ 32) :
    (∀ inclusive : Bool,
      (ScanVector inputBuffer outputBuffer inclusive streamId).map (fun launch => launch.Kernel)
        = inputBuffer.NonEmptyDevices.map (fun dev =>
            TScanVectorKernel.mk (inputBuffer.At dev) (outputBuffer.At dev) inclusive false))
    ∧ (∀ inclusive : Bool, ((TScanVectorKernel.mk input output inclusive false).Run
        { routines with ScanVector := NKernel.ScanVector } stream context device).1 = .ok ())
    ∧ (∀ i, i < input.Size →
        ((TScanVectorKernel.mk input output true false).Run
          { routines with ScanVector := NKernel.ScanVector } stream context device).2.Memory
          (output.Get + i) = ∑ j ∈ Finset.range (i + 1), device.Memory (input.Get + j))
    ∧ (∀ i, i < input.Size →
        ((TScanVectorKernel.mk input output false false).Run
          { routines with ScanVector := NKernel.ScanVector } stream context device).2.Memory
          (output.Get + i) = ∑ j ∈ Finset.range i, device.Memory (input.Get + j))
    ∧ (0 < input.Size →
        ((TScanVectorKernel.mk input output false false).Run
          { routines with ScanVector := NKernel.ScanVector } stream context device).2.Memory
          output.Get = 0)
    ∧ (∀ i, 0 < i → i < input.Size →
        ((TScanVectorKernel.mk input output false false).Run
          { routines with ScanVector := NKernel.ScanVector } stream context device).2.Memory
          (output.Get + i)
        = ((TScanVectorKernel.mk input output true false).Run
          { routines with ScanVector := NKernel.ScanVector } stream context device).2.Memory
          (output.Get + (i - 1))) := by
  have hcast : ui32 input.Size = input.Size := ui32_of_lt hsize
  refine ⟨?_, ?_, ?_, ?_, ?_, ?_⟩
  · intro inclusive
    rw [ScanVector, LaunchKernels, List.map_map]
    rfl
  · intro inclusive
    simp [TScanVectorKernel.Run, TDevice.Invoke, NKernel.ScanVector, CUDA_SAFE_CALL]
  · intro i hi
    rw [TScanVectorKernel.Run_plain_memory routines input output true stream context device i
      (by rw [hcast]; exact hi)]
    simp
  · intro i hi
    rw [TScanVectorKernel.Run_plain_memory routines input output false stream context device i
      (by rw [hcast]; exact hi)]
    simp
  · intro hpos
    have h := TScanVectorKernel.Run_plain_memory routines input output false stream context
      device 0 (by rw [hcast]; exact hpos)
    simpa using h
  · intro i hpos hi
    rw [TScanVectorKernel.Run_plain_memory routines input output false stream context device i
      (by rw [hcast]; exact hi),
      TScanVectorKernel.Run_plain_memory routines input output true stream context device
        (i - 1) (by rw [hcast]; omega)]
    have : i - 1 + 1 = i := by omega
    simp [this]

/-- Where no element is zero, the segment heads are exactly the negative elements. -/
theorem NKernel.IsSegmentHead_of_ne_zero (signOfZero : Bool) {x : Int} (hx : x ≠ 0) :
    NKernel.IsSegmentHead signOfZero x = decide (x < 0) := by
  simp [NKernel.IsSegmentHead, hx]

/-- The running sum after position `i` is the sum of the magnitudes from the last
segment head at or before `i` up to `i`. -/
theorem NKernel.SegmentedRunningSum_eq_sum (signOfZero : Bool) (a : Nat → Int) (i : Nat)
    (hnz : ∀ j, j ≤ i → a j ≠ 0) (h : Nat) (hle : h ≤ i)
    (hhead : a h < 0 ∨ h = 0) (hlast : ∀ j, h < j → j ≤ i → ¬ a j < 0) :
    NKernel.SegmentedRunningSum signOfZero a (i + 1) = ∑ j ∈ Finset.Icc h i, |a j| := by
  induction i with
  | zero =>
    have h0 : h = 0 := by omega
    subst h0
    simp [NKernel.SegmentedRunningSum]
  | succ i ih =>
    rw [NKernel.SegmentedRunningSum,
      NKernel.IsSegmentHead_of_ne_zero signOfZero (hnz (i + 1) (Nat.le_refl _))]
    by_cases hlt : h ≤ i
    · have hneg : ¬ a (i + 1) < 0 := hlast (i + 1) (by omega) (Nat.le_refl _)
      rw [ih (fun j hj => hnz j (by omega)) hlt (fun j h1 h2 => hlast j h1 (by omega)),
        Finset.sum_Icc_succ_top (by omega)]
      simp [hneg]
    · have heq : h = i + 1 := by omega
      subst heq
      have hneg : a (i + 1) < 0 := by
        rcases hhead with hneg | hzero
        · exact hneg
        · omega
      simp [hneg]

/-- What `Run` leaves in the output region when the segmented device routine is the one
modelled from the spec. -/
theorem NKernelHost.TScanVectorKernel.Run_segmented_memory
    (routines : TDeviceRoutines Int) (signOfZero : Bool)
    (exclusive : (Nat → Int) → NKernel.cudaError_t × (Nat → Int))
    (input output : TCudaBufferPtr)
    (stream : TCudaStream) (context : NKernel.TScanKernelContext) (device : TDevice Int)
    (i : Nat) (hi : i < ui32 input.Size) :
    ((TScanVectorKernel.mk input output true true).Run
        { routines with SegmentedScanNonNegativeVector :=
            NKernel.SegmentedScanNonNegativeVector signOfZero exclusive }
        stream context device).2.Memory (output.Get + i)
      = NKernel.SegmentedRunningSum signOfZero (fun j => device.Memory (input.Get + j))
          (i + 1) := by
  have hmem : output.Get ≤ output.Get + i ∧ output.Get + i < output.Get + ui32 input.Size :=
    ⟨Nat.le_add_right _ _, Nat.add_lt_add_left hi _⟩
  simp only [TScanVectorKernel.Run, CB_ENSURE, TDevice.Invoke,
    NKernel.SegmentedScanNonNegativeVector, hmem, and_self, if_true,
    Nat.add_sub_cancel_left]

/-- C3 (amended): for every sign-encoded input of fewer than `2 ^ 32` elements, none of
them zero, `Run` on the kernel that `InclusiveSegmentedScanNonNegativeVector` builds for
each non-empty shard (`inclusive = true`, `nonNegativeSegmented = true`), with a fault-free
device routine,
returns normally and leaves at every position `i < n` the sum of the magnitudes
`|input[j]|` for `j` from the last segment head at or before `i` (the largest `j ≤ i` with
`input[j]` negative, or `0` when there is none) up to `i`; in particular the input
`[5, -3, 2, -1, 4]` gives `[5, 3, 5, 1, 5]`. -/
theorem C3_segmented_scan_sums_magnitudes_since_last_head
    (routines : TDeviceRoutines Int) (signOfZero : Bool)
    (exclusive : (Nat → Int) → NKernel.cudaError_t × (Nat → Int))
    (input output : TCudaBufferPtr)
    (stream : TCudaStream) (context : NKernel.TScanKernelContext) (device : TDevice Int)
    (inputBuffer outputBuffer : TCudaBuffer) (streamId : Nat)
    (hsize : input.Size < 2 ^ 32)
    (hnz : ∀ j, j < input.Size → device.Memory (input.Get + j) ≠ 0) :
    (InclusiveSegmentedScanNonNegativeVector inputBuffer outputBuffer streamId).map
        (fun launch => launch.Kernel)
      = inputBuffer.NonEmptyDevices.map (fun dev =>
          TScanVectorKernel.mk (inputBuffer.At dev) (outputBuffer.At dev) true true)
    ∧ ((TScanVectorKernel.mk input output true true).Run
        { routines with SegmentedScanNonNegativeVector :=
            NKernel.SegmentedScanNonNegativeVector signOfZero exclusive }
        stream context device).1 = .ok ()
    ∧ (∀ i h, i < input.Size → h ≤ i →
        (device.Memory (input.Get + h) < 0 ∨ h = 0) →
        (∀ j, h < j → j ≤ i → ¬ device.Memory (input.Get + j) < 0) →
        ((TScanVectorKernel.mk input output true true).Run
          { routines with SegmentedScanNonNegativeVector :=
              NKernel.SegmentedScanNonNegativeVector signOfZero exclusive }
          stream context device).2.Memory (output.Get + i)
        = ∑ j ∈ Finset.Icc h i, |device.Memory (input.Get + j)|)
    ∧ (input.Size = 5 →
        (List.range 5).map (fun j => device.Memory (input.Get + j)) = [5, -3, 2, -1, 4] →
        (List.range 5).map (fun i =>
          ((TScanVectorKernel.mk input output true true).Run
            { routines with SegmentedScanNonNegativeVector :=
                NKernel.SegmentedScanNonNegativeVector signOfZero exclusive }
            stream context device).2.Memory (output.Get + i)) = [5, 3, 5, 1, 5]) := by
  have hcast : ui32 input.Size = input.Size := ui32_of_lt hsize
  refine ⟨?_, ?_, ?_, ?_⟩
  · rw [InclusiveSegmentedScanNonNegativeVector, LaunchKernels, List.map_map]
    rfl
  · simp [TScanVectorKernel.Run, CB_ENSURE, TDevice.Invoke,
      NKernel.SegmentedScanNonNegativeVector, CUDA_SAFE_CALL]
  · intro i h hi hle hhead hlast
    rw [TScanVectorKernel.Run_segmented_memory routines signOfZero exclusive input output
      stream context device i (by rw [hcast]; exact hi)]
    exact NKernel.SegmentedRunningSum_eq_sum signOfZero _ i
      (fun j hj => hnz j (by omega)) h hle hhead hlast
  · intro h5 hmem
    have hrun : ∀ i, i < 5 →
        ((TScanVectorKernel.mk input output true true).Run
          { routines with SegmentedScanNonNegativeVector :=
              NKernel.SegmentedScanNonNegativeVector signOfZero exclusive }
          stream context device).2.Memory (output.Get + i)
        = NKernel.SegmentedRunningSum signOfZero (fun j => device.Memory (input.Get + j))
            (i + 1) := fun i hi =>
      TScanVectorKernel.Run_segmented_memory routines signOfZero exclusive input output
        stream context device i (by rw [hcast, h5]; exact hi)
    simp only [List.range_succ, List.range_zero, List.nil_append, List.map_cons,
      List.map_nil, List.cons_append, List.cons.injEq, and_true] at hmem ⊢
    obtain ⟨h0, h1, h2, h3, h4⟩ := hmem
    rw [Nat.add_zero] at h0
    rw [hrun 0 (by decide), hrun 1 (by decide), hrun 2 (by decide), hrun 3 (by decide),
      hrun 4 (by decide)]
    simp [NKernel.SegmentedRunningSum, NKernel.IsSegmentHead, h0, h1, h2, h3, h4]

/-- C2, at a concrete array: the inclusive scan of `[5, 7, 9]` holds `5 + 7 + 9` at
position `2`. -/
theorem C2_plain_scan_witness :
    ((TScanVectorKernel.mk ⟨0, 3⟩ ⟨8, 3⟩ true false).Run
        { SampleRoutines 0 with ScanVector := NKernel.ScanVector } ⟨0⟩ ⟨0, 0⟩
        (SampleDevice [5, 7, 9] 0)).2.Memory (8 + 2)
      = ∑ j ∈ Finset.range (2 + 1), (SampleDevice [5, 7, 9] 0).Memory (0 + j) :=
  (C2_plain_scan_yields_running_sums (SampleRoutines 0) ⟨0, 3⟩ ⟨8, 3⟩ ⟨0⟩ ⟨0, 0⟩
    (SampleDevice [5, 7, 9] 0) ⟨[⟨0, 3⟩]⟩ ⟨[⟨8, 3⟩]⟩ 0 (by decide)).2.2.1 2 (by decide)

/-- C2 as stated fails on an array of `2 ^ 32` elements: the count is narrowed to the
`ui32` value `0`, the device routine is asked to scan nothing, and position `0` of the
output keeps its old content `7` where the exclusive scan should have put `0`. -/
theorem C2_plain_scan_counterexample :
    (0 : Nat) < (TCudaBufferPtr.mk 0 4294967296).Size
      ∧ ((TScanVectorKernel.mk ⟨0, 4294967296⟩ ⟨4294967296, 4294967296⟩ false false).Run
          { SampleRoutines 0 with ScanVector := NKernel.ScanVector } ⟨0⟩ ⟨0, 0⟩
          (SampleDevice [] 7)).2.Memory 4294967296 = 7
      ∧ ((TScanVectorKernel.mk ⟨0, 4294967296⟩ ⟨4294967296, 4294967296⟩ false false).Run
          { SampleRoutines 0 with ScanVector := NKernel.ScanVector } ⟨0⟩ ⟨0, 0⟩
          (SampleDevice [] 7)).2.Memory 4294967296 ≠ 0 := by
  decide

/-- C3, at the array of the spec: `[5, -3, 2, -1, 4]` gives `[5, 3, 5, 1, 5]`. -/
theorem C3_segmented_scan_witness :
    (List.range 5).map (fun i =>
      ((TScanVectorKernel.mk ⟨0, 5⟩ ⟨8, 5⟩ true true).Run
        { SampleRoutines 0 with SegmentedScanNonNegativeVector :=
            NKernel.SegmentedScanNonNegativeVector false (fun memory => (1, memory)) }
        ⟨0⟩ ⟨0, 0⟩ (SampleDevice [5, -3, 2, -1, 4] 0)).2.Memory (8 + i)) = [5, 3, 5, 1, 5] :=
  (C3_segmented_scan_sums_magnitudes_since_last_head (SampleRoutines 0) false
    (fun memory => (1, memory)) ⟨0, 5⟩ ⟨8, 5⟩ ⟨0⟩ ⟨0, 0⟩ (SampleDevice [5, -3, 2, -1, 4] 0)
    ⟨[⟨0, 5⟩]⟩ ⟨[⟨8, 5⟩]⟩ 0 (by decide) (by decide)).2.2.2 rfl (by decide)

/-- C3 as stated fails on an input of `2 ^ 32` elements (none zero, none negative): the
count is narrowed to the `ui32` value `0`, nothing is scanned, and position `0` of the
output keeps its old content `7` instead of the magnitude `1` of the first element. -/
theorem C3_segmented_scan_counterexample :
    (∀ j, (SampleDevice [1] 7).Memory (0 + j) ≠ 0)
      ∧ (∀ j, ¬ (SampleDevice [1] 7).Memory (0 + j) < 0)
      ∧ ((TScanVectorKernel.mk ⟨0, 4294967296⟩ ⟨4294967296, 4294967296⟩ true true).Run
          { SampleRoutines 0 with SegmentedScanNonNegativeVector :=
              NKernel.SegmentedScanNonNegativeVector false (fun memory => (1, memory)) }
          ⟨0⟩ ⟨0, 0⟩ (SampleDevice [1] 7)).2.Memory (4294967296 + 0)
        ≠ ∑ j ∈ Finset.Icc 0 0, |(SampleDevice [1] 7).Memory (0 + j)| := by
  refine ⟨?_, ?_, ?_⟩
  · intro j
    cases j <;> simp [SampleDevice]
  · intro j
    cases j <;> simp [SampleDevice]
  · rw [Finset.Icc_self, Finset.sum_singleton]
    decide

/-- The scan kernel does not swallow a device failure: whichever device routine its `Run`
invokes, a status other than success makes `Run` fail with the error wrapping it. -/
theorem NKernelHost.TScanVectorKernel.Run_propagates_device_failure {T : Type}
    (routines : TDeviceRoutines T) (kernel : TScanVectorKernel) (stream : TCudaStream)
    (context : NKernel.TScanKernelContext) (device : TDevice T) :
    (kernel.IsNonNegativeSegmentedScan = false →
      ∀ status, status ≠ NKernel.cudaSuccess →
        (routines.ScanVector kernel.Input.Get kernel.Output.Get (ui32 kernel.Input.Size)
          kernel.Inclusive context stream.GetStream device.Memory).1 = status →
        (kernel.Run routines stream context device).1 = .error (.DeviceError status))
    ∧ (kernel.IsNonNegativeSegmentedScan = true → kernel.Inclusive = true →
      ∀ status, status ≠ NKernel.cudaSuccess →
        (routines.SegmentedScanNonNegativeVector kernel.Input.Get kernel.Output.Get
          (ui32 kernel.Input.Size) kernel.Inclusive context stream.GetStream
          device.Memory).1 = status →
        (kernel.Run routines stream context device).1 = .error (.DeviceError status)) := by
  constructor
  · intro hplain status hne hstatus
    simp [TScanVectorKernel.Run, hplain, TDevice.Invoke, CUDA_SAFE_CALL, hstatus, hne]
  · intro hseg hincl status hne hstatus
    simp only [TScanVectorKernel.Run, hseg, hincl, CB_ENSURE, TDevice.Invoke, CUDA_SAFE_CALL,
      if_true]
    rw [hincl] at hstatus
    simp [hstatus, hne]

/-- C4, at the failing input: the device routine of the scatter kernel reports the status
`700`, the call is on the trace of the device, and `Run` still returns normally; the scan
kernel on the same device and routines fails with the error wrapping `700`, in both of its
branches. -/
theorem C4_scatter_kernel_run_swallows_device_failure :
    ((TNonNegativeSegmentedScanAndScatterVectorKernel.mk ⟨0, 3⟩ ⟨16, 3⟩ ⟨8, 3⟩ true).Run
        (SampleRoutines 700) ⟨0⟩ ⟨0, 0⟩ (SampleDevice [5, -3, 2] 0)).1 = .ok ()
      ∧ ((TNonNegativeSegmentedScanAndScatterVectorKernel.mk ⟨0, 3⟩ ⟨16, 3⟩ ⟨8, 3⟩ true).Run
        (SampleRoutines 700) ⟨0⟩ ⟨0, 0⟩ (SampleDevice [5, -3, 2] 0)).2.Calls
          = [.SegmentedScanAndScatterNonNegativeVector 0 16 8 3 true ⟨0, 0⟩ 0]
      ∧ ((SampleRoutines 700).SegmentedScanAndScatterNonNegativeVector 0 16 8 3 true ⟨0, 0⟩ 0
          (SampleDevice [5, -3, 2] 0).Memory).1 = 700
      ∧ ((TScanVectorKernel.mk ⟨0, 3⟩ ⟨8, 3⟩ true true).Run
        (SampleRoutines 700) ⟨0⟩ ⟨0, 0⟩ (SampleDevice [5, -3, 2] 0)).1
          = .error (.DeviceError 700)
      ∧ ((TScanVectorKernel.mk ⟨0, 3⟩ ⟨8, 3⟩ true false).Run
        (SampleRoutines 700) ⟨0⟩ ⟨0, 0⟩ (SampleDevice [5, -3, 2] 0)).1
          = .error (.DeviceError 700) := by
  refine ⟨rfl, rfl, rfl, rfl, rfl⟩

/-- C5 as stated fails on an input of `2 ^ 32` elements: with a sizing function that
returns the count it is given, `ScanVectorTempSize` applied to the input's element count is
`2 ^ 32`, while the context `PrepareContext` returns has `NumParts = 0` and the one
allocation request is for `0` bytes, because the count is narrowed to `ui32` first. -/
theorem C5_prepare_context_counterexample :
    (SampleRoutines 0).ScanVectorTempSize (TCudaBufferPtr.mk 0 4294967296).Size true
        = 4294967296
      ∧ ((TScanVectorKernel.mk ⟨0, 4294967296⟩ ⟨4294967296, 4294967296⟩ true false).PrepareContext
          (SampleRoutines 0) ⟨[], fun _ _ => some 5⟩).1
        = .ok { NumParts := 0, PartResults := 5 }
      ∧ ((TScanVectorKernel.mk ⟨0, 4294967296⟩ ⟨4294967296, 4294967296⟩ true false).PrepareContext
          (SampleRoutines 0) ⟨[], fun _ _ => some 5⟩).2.Requests = [0]
      ∧ ((TNonNegativeSegmentedScanAndScatterVectorKernel.mk ⟨0, 4294967296⟩ ⟨0, 4294967296⟩
          ⟨4294967296, 4294967296⟩ true).PrepareContext
          (SampleRoutines 0) ⟨[], fun _ _ => some 5⟩).1
        = .ok { NumParts := 0, PartResults := 5 } :=
  ⟨rfl, rfl, rfl, rfl⟩

/-- C5 (amended): for both kernel classes, every memory manager and every sizing function,
`PrepareContext` makes exactly one allocation request, of exactly `NumParts` bytes, where
`NumParts` is `ScanVectorTempSize` applied to the input's element count narrowed to `ui32`
(the element count itself whenever it is below `2 ^ 32`) and the kernel's `Inclusive` flag;
when the request is granted it returns the context holding that `NumParts` and, as
`PartResults`, the handle the allocation returned, and when it is refused the allocation
error surfaces. -/
theorem C5_prepare_context_sizes_then_allocates_once {T : Type}
    (routines : TDeviceRoutines T) (scan : TScanVectorKernel)
    (scatter : TNonNegativeSegmentedScanAndScatterVectorKernel)
    (memoryManager : IMemoryManager) :
    ((scan.PrepareContext routines memoryManager).2.Requests
        = memoryManager.Requests
          ++ [routines.ScanVectorTempSize (scan.Input.Size % 2 ^ 32) scan.Inclusive]
      ∧ (scan.PrepareContext routines memoryManager).1
        = (match memoryManager.Grant memoryManager.Requests
            (routines.ScanVectorTempSize (scan.Input.Size % 2 ^ 32) scan.Inclusive) with
          | some handle => .ok
              { NumParts :=
                  routines.ScanVectorTempSize (scan.Input.Size % 2 ^ 32) scan.Inclusive,
                PartResults := handle }
          | none => .error .ResourceExhausted)
      ∧ (scan.Input.Size < 2 ^ 32 → scan.Input.Size % 2 ^ 32 = scan.Input.Size))
    ∧ ((scatter.PrepareContext routines memoryManager).2.Requests
        = memoryManager.Requests
          ++ [routines.ScanVectorTempSize (scatter.Input.Size % 2 ^ 32) scatter.Inclusive]
      ∧ (scatter.PrepareContext routines memoryManager).1
        = (match memoryManager.Grant memoryManager.Requests
            (routines.ScanVectorTempSize (scatter.Input.Size % 2 ^ 32) scatter.Inclusive) with
          | some handle => .ok
              { NumParts :=
                  routines.ScanVectorTempSize (scatter.Input.Size % 2 ^ 32) scatter.Inclusive,
                PartResults := handle }
          | none => .error .ResourceExhausted)
      ∧ (scatter.Input.Size < 2 ^ 32 → scatter.Input.Size % 2 ^ 32 = scatter.Input.Size)) := by
  refine ⟨⟨?_, ?_, fun h => Nat.mod_eq_of_lt h⟩, ⟨?_, ?_, fun h => Nat.mod_eq_of_lt h⟩⟩
  · simp only [TScanVectorKernel.PrepareContext, IMemoryManager.Allocate, ui32]
    split <;> rfl
  · simp only [TScanVectorKernel.PrepareContext, IMemoryManager.Allocate, ui32]
    cases memoryManager.Grant memoryManager.Requests
      (routines.ScanVectorTempSize (scan.Input.Size % 2 ^ 32) scan.Inclusive) <;> rfl
  · simp only [TNonNegativeSegmentedScanAndScatterVectorKernel.PrepareContext,
      IMemoryManager.Allocate, ui32]
    split <;> rfl
  · simp only [TNonNegativeSegmentedScanAndScatterVectorKernel.PrepareContext,
      IMemoryManager.Allocate, ui32]
    cases memoryManager.Grant memoryManager.Requests
      (routines.ScanVectorTempSize (scatter.Input.Size % 2 ^ 32) scatter.Inclusive) <;> rfl

/-- C6 as stated fails: `Run` on the scatter kernel built with `Inclusive = false` returns
normally, not with a configuration error, and the device routine has been invoked, with
`inclusive = false`. -/
theorem C6_scatter_kernel_counterexample :
    ((TNonNegativeSegmentedScanAndScatterVectorKernel.mk ⟨0, 3⟩ ⟨16, 3⟩ ⟨8, 3⟩ false).Run
        (SampleRoutines 0) ⟨0⟩ ⟨0, 0⟩ (SampleDevice [5, -3, 2] 0)).1 = .ok ()
      ∧ ((TNonNegativeSegmentedScanAndScatterVectorKernel.mk ⟨0, 3⟩ ⟨16, 3⟩ ⟨8, 3⟩ false).Run
        (SampleRoutines 0) ⟨0⟩ ⟨0, 0⟩ (SampleDevice [5, -3, 2] 0)).2.Calls
          = [.SegmentedScanAndScatterNonNegativeVector 0 16 8 3 false ⟨0, 0⟩ 0] := by
  exact ⟨rfl, rfl⟩

/-- C6 (amended): the scatter kernel does not enforce the inclusive-only precondition of
the segmented scan kernel: for every input, index array and output, `Run` on the kernel
built with `Inclusive = false` (the default of the public
`SegmentedScanAndScatterNonNegativeVector`) raises no configuration error and invokes the
device routine `SegmentedScanAndScatterNonNegativeVector` exactly once, passing
`inclusive = false`; every kernel the public entry point launches for `inclusive = false`
is such a kernel. -/
theorem C6_scatter_kernel_accepts_exclusive_mode {T : Type} (routines : TDeviceRoutines T)
    (input indices output : TCudaBufferPtr) (stream : TCudaStream)
    (context : NKernel.TScanKernelContext) (device : TDevice T)
    (inputWithSignMasks indexBuffer outputBuffer : TCudaBuffer) (streamId : Nat) :
    (∀ message : String,
      ((TNonNegativeSegmentedScanAndScatterVectorKernel.mk input indices output false).Run
        routines stream context device).1 ≠ .error (.ConfigurationError message))
    ∧ ((TNonNegativeSegmentedScanAndScatterVectorKernel.mk input indices output false).Run
        routines stream context device).2.Calls
      = device.Calls ++ [.SegmentedScanAndScatterNonNegativeVector input.Get indices.Get
          output.Get (ui32 input.Size) false context stream.GetStream]
    ∧ (SegmentedScanAndScatterNonNegativeVector inputWithSignMasks indexBuffer outputBuffer
        false streamId).map (fun launch => launch.Kernel.Inclusive)
      = inputWithSignMasks.NonEmptyDevices.map (fun _ => false) := by
  refine ⟨?_, rfl, ?_⟩
  · intro message
    simp [TNonNegativeSegmentedScanAndScatterVectorKernel.Run]
  · rw [SegmentedScanAndScatterNonNegativeVector, LaunchKernels, List.map_map]
    rfl

/-- C7 as stated fails on a shard of `2 ^ 32` elements: the count handed to the sizing
function (which here returns it, so that it shows in the allocation request) and the count
handed to the device routine are both `0`, not the shard's element count. -/
theorem C7_element_count_counterexample :
    (TCudaBufferPtr.mk 0 4294967296).Size = 4294967296
      ∧ ((TScanVectorKernel.mk ⟨0, 4294967296⟩ ⟨4294967296, 4294967296⟩ true false).PrepareContext
          (SampleRoutines 0) ⟨[], fun _ _ => some 0⟩).2.Requests = [0]
      ∧ ((TScanVectorKernel.mk ⟨0, 4294967296⟩ ⟨4294967296, 4294967296⟩ true false).Run
          (SampleRoutines 0) ⟨0⟩ ⟨0, 0⟩ (SampleDevice [] 7)).2.Calls
          = [.ScanVector 0 4294967296 0 true ⟨0, 0⟩ 0] := by
  decide

/-- C7 (amended): for both kernel classes and every input shard, the element count given
to the sizing function in `PrepareContext` and the element count given to the device
routine in `Run` are one number `n`, the shard's element count `Input.Size()` narrowed to
`ui32` (the element count itself whenever it is below `2 ^ 32`), and both phases use the
kernel's `Inclusive` flag: the scratch region is sized for the `n` and the flag the device
routine is then given. -/
theorem C7_sizing_and_run_use_same_count_and_flag {T : Type}
    (routines : TDeviceRoutines T) (scan : TScanVectorKernel)
    (scatter : TNonNegativeSegmentedScanAndScatterVectorKernel)
    (memoryManager : IMemoryManager) (stream : TCudaStream)
    (context : NKernel.TScanKernelContext) (device : TDevice T) :
    (∃ n, n = scan.Input.Size % 2 ^ 32 ∧ (scan.Input.Size < 2 ^ 32 → n = scan.Input.Size)
      ∧ (scan.PrepareContext routines memoryManager).2.Requests
        = memoryManager.Requests ++ [routines.ScanVectorTempSize n scan.Inclusive]
      ∧ ∃ issued, (scan.Run routines stream context device).2.Calls = device.Calls ++ issued
        ∧ ∀ call ∈ issued, call.Size = n ∧ call.Inclusive = scan.Inclusive)
    ∧ (∃ n, n = scatter.Input.Size % 2 ^ 32
      ∧ (scatter.Input.Size < 2 ^ 32 → n = scatter.Input.Size)
      ∧ (scatter.PrepareContext routines memoryManager).2.Requests
        = memoryManager.Requests ++ [routines.ScanVectorTempSize n scatter.Inclusive]
      ∧ ∃ call, (scatter.Run routines stream context device).2.Calls = device.Calls ++ [call]
        ∧ call.Size = n ∧ call.Inclusive = scatter.Inclusive) := by
  constructor
  · refine ⟨ui32 scan.Input.Size, rfl, fun h => ui32_of_lt h, ?_, ?_⟩
    · simp only [TScanVectorKernel.PrepareContext, IMemoryManager.Allocate]
      split <;> rfl
    · by_cases hseg : scan.IsNonNegativeSegmentedScan = true
      · by_cases hincl : scan.Inclusive = true
        · refine ⟨[.SegmentedScanNonNegativeVector scan.Input.Get scan.Output.Get
            (ui32 scan.Input.Size) scan.Inclusive context stream.GetStream], ?_, ?_⟩
          · simp [TScanVectorKernel.Run, hseg, hincl, CB_ENSURE, TDevice.Invoke]
          · intro call hcall
            rw [List.mem_singleton] at hcall
            subst hcall
            exact ⟨rfl, rfl⟩
        · refine ⟨[], ?_, ?_⟩
          · simp [TScanVectorKernel.Run, hseg, hincl, CB_ENSURE]
          · intro call hcall
            cases hcall
      · refine ⟨[.ScanVector scan.Input.Get scan.Output.Get
          (ui32 scan.Input.Size) scan.Inclusive context stream.GetStream], ?_, ?_⟩
        · simp [TScanVectorKernel.Run, hseg, TDevice.Invoke]
        · intro call hcall
          rw [List.mem_singleton] at hcall
          subst hcall
          exact ⟨rfl, rfl⟩
  · refine ⟨ui32 scatter.Input.Size, rfl, fun h => ui32_of_lt h, ?_, ?_⟩
    · simp only [TNonNegativeSegmentedScanAndScatterVectorKernel.PrepareContext,
        IMemoryManager.Allocate]
      split <;> rfl
    · exact ⟨_, rfl, rfl, rfl⟩

/-- C8: whenever `Run` of the scan kernel fails with the configuration error, the kernel is
a non-negative segmented scan asked for exclusive mode and no device work has been issued
by that `Run`: no device routine is on the trace beyond those that were there, and the
memory of the device, the output buffer included, is what it was. -/
theorem C8_rejected_run_issues_no_device_work {T : Type}
    (routines : TDeviceRoutines T) (kernel : TScanVectorKernel) (stream : TCudaStream)
    (context : NKernel.TScanKernelContext) (device : TDevice T) (message : String)
    (hfail : (kernel.Run routines stream context device).1
      = .error (.ConfigurationError message)) :
    kernel.IsNonNegativeSegmentedScan = true ∧ kernel.Inclusive = false
      ∧ (kernel.Run routines stream context device).2.Calls = device.Calls
      ∧ (kernel.Run routines stream context device).2.Memory = device.Memory := by
  obtain ⟨input, output, inclusive, segmented⟩ := kernel
  cases segmented <;> cases inclusive
  · exfalso
    revert hfail
    simp only [TScanVectorKernel.Run, CUDA_SAFE_CALL, Bool.false_eq_true, if_false]
    split_ifs <;> simp
  · exfalso
    revert hfail
    simp only [TScanVectorKernel.Run, CUDA_SAFE_CALL, Bool.false_eq_true, if_false]
    split_ifs <;> simp
  · exact ⟨rfl, rfl, rfl, rfl⟩
  · exfalso
    revert hfail
    simp only [TScanVectorKernel.Run, CB_ENSURE, CUDA_SAFE_CALL, if_true]
    split_ifs <;> simp

/-- C8, at a concrete kernel: the exclusive segmented scan of `[5, -3, 2]` is rejected and
the device is left with an empty trace. -/
theorem C8_rejected_run_witness :
    ((TScanVectorKernel.mk ⟨0, 3⟩ ⟨8, 3⟩ false true).Run (SampleRoutines 0) ⟨0⟩ ⟨0, 0⟩
        (SampleDevice [5, -3, 2] 0)).1
        = .error (.ConfigurationError
          "Error: fast exclusive scan currently not working via simple operator transformation")
      ∧ ((TScanVectorKernel.mk ⟨0, 3⟩ ⟨8, 3⟩ false true).Run (SampleRoutines 0) ⟨0⟩ ⟨0, 0⟩
        (SampleDevice [5, -3, 2] 0)).2.Calls = [] :=
  ⟨rfl, (C8_rejected_run_issues_no_device_work (SampleRoutines 0)
    (TScanVectorKernel.mk ⟨0, 3⟩ ⟨8, 3⟩ false true) ⟨0⟩ ⟨0, 0⟩ (SampleDevice [5, -3, 2] 0)
    "Error: fast exclusive scan currently not working via simple operator transformation"
    rfl).2.2.1⟩

/-- C9: every kernel that `InclusiveSegmentedScanNonNegativeVector` launches, for every
input, output and stream id, is built with `inclusive = true` and
`nonNegativeSegmented = true`; so on every device state its `Run` raises no configuration
error and invokes exactly one device routine, the segmented one, with `inclusive = true`. -/
theorem C9_public_segmented_scan_never_hits_configuration_error
    (input output : TCudaBuffer) (streamId : Nat) (launch : TKernelLaunch TScanVectorKernel)
    (hlaunch : launch ∈ InclusiveSegmentedScanNonNegativeVector input output streamId) :
    launch.Kernel.Inclusive = true ∧ launch.Kernel.IsNonNegativeSegmentedScan = true
      ∧ ∀ (T : Type) (routines : TDeviceRoutines T) (stream : TCudaStream)
          (context : NKernel.TScanKernelContext) (device : TDevice T),
        (∀ message : String, (launch.Kernel.Run routines stream context device).1
          ≠ .error (.ConfigurationError message))
        ∧ (launch.Kernel.Run routines stream context device).2.Calls
          = device.Calls ++ [.SegmentedScanNonNegativeVector launch.Kernel.Input.Get
              launch.Kernel.Output.Get (ui32 launch.Kernel.Input.Size) true context
              stream.GetStream] := by
  simp only [InclusiveSegmentedScanNonNegativeVector, LaunchKernels, List.mem_map] at hlaunch
  obtain ⟨dev, _, rfl⟩ := hlaunch
  refine ⟨rfl, rfl, ?_⟩
  intro T routines stream context device
  constructor
  · intro message
    simp only [TScanVectorKernel.Run, CB_ENSURE, CUDA_SAFE_CALL]
    split_ifs <;> simp
  · simp [TScanVectorKernel.Run, CB_ENSURE, TDevice.Invoke]

/-- C9, at a concrete buffer of two shards (the second one empty): the one kernel launched
has both flags set. -/
theorem C9_public_segmented_scan_witness :
    (TKernelLaunch.mk 0 0 (TScanVectorKernel.mk ⟨0, 5⟩ ⟨8, 5⟩ true true)).Kernel.Inclusive = true
      ∧ (TKernelLaunch.mk 0 0
          (TScanVectorKernel.mk ⟨0, 5⟩ ⟨8, 5⟩ true true)).Kernel.IsNonNegativeSegmentedScan
        = true :=
  ⟨(C9_public_segmented_scan_never_hits_configuration_error ⟨[⟨0, 5⟩, ⟨0, 0⟩]⟩
      ⟨[⟨8, 5⟩, ⟨0, 0⟩]⟩ 0 ⟨0, 0, TScanVectorKernel.mk ⟨0, 5⟩ ⟨8, 5⟩ true true⟩
      (by decide)).1,
    rfl⟩

/-! ## The length-prefixed codec -/

namespace NBlockCodecs

/-- Writing `count` bytes yields `count` bytes. -/
theorem LittleEndianBytes_length (count value : Nat) :
    (LittleEndianBytes count value).length = count := by
  induction count generalizing value with
  | zero => rfl
  | succ count ih => simp [LittleEndianBytes, ih]

/-- Reading back the `count` low-order bytes of a value gives the value modulo
`256 ^ count`. -/
theorem LittleEndianValue_LittleEndianBytes (count value : Nat) :
    LittleEndianValue (LittleEndianBytes count value) = value % 256 ^ count := by
  induction count generalizing value with
  | zero => simp [LittleEndianBytes, LittleEndianValue, Nat.mod_one]
  | succ count ih =>
    simp only [LittleEndianBytes, LittleEndianValue, ih]
    rw [pow_succ, Nat.mul_comm (256 ^ count) 256, Nat.mod_mul]

/-- The header read back from a compressed block is the stored length. -/
theorem ReadUnaligned_WriteUnaligned_append (value : Nat) (body : TData) :
    ReadUnaligned (WriteUnaligned value ++ body) = value % 2 ^ 64 := by
  have hlen : (WriteUnaligned value).length = 8 := LittleEndianBytes_length 8 _
  rw [ReadUnaligned, List.take_left' hlen, WriteUnaligned, LittleEndianValue_LittleEndianBytes,
    ui64]
  norm_num

/-- Skipping the header of a compressed block leaves the output of the base codec. -/
theorem drop_WriteUnaligned_append (value : Nat) (body : TData) :
    (WriteUnaligned value ++ body).drop 8 = body :=
  List.drop_left' (LittleEndianBytes_length 8 _)

end NBlockCodecs

open NBlockCodecs

/-- C10: for every byte string `x` (its length a `size_t`, below `2 ^ 64`) and every base
codec whose `DoDecompress(DoCompress(y), len(y))` reproduces `y` for every non-empty `y`,
`Decompress` applied to the bytes written by `Compress(x)` returns `len(x)` and writes
exactly `x`; for a non-empty `x` it calls the base decompressor once, on the bytes the base
compressor wrote and with `len(x)`, and for the empty `x` it returns `0` without calling
the base decompressor. -/
theorem C10_add_length_codec_round_trip (base : TBaseCodec) (x : TData)
    (hlen : x.length < 2 ^ 64)
    (hbase : ∀ y : TData, y ≠ [] → y.length < 2 ^ 64 →
      base.DoDecompress (base.DoCompress y) y.length = .ok y) :
    (TAddLengthCodec.Decompress base (TAddLengthCodec.Compress base x).1).Result
        = .ok x.length
      ∧ (TAddLengthCodec.Decompress base (TAddLengthCodec.Compress base x).1).Written = x
      ∧ (TAddLengthCodec.Decompress base (TAddLengthCodec.Compress base x).1).BaseCalls
        = (if x = [] then [] else [(base.DoCompress x, x.length)])
      ∧ (TAddLengthCodec.Decompress base (TAddLengthCodec.Compress base []).1).Result = .ok 0
      ∧ (TAddLengthCodec.Decompress base (TAddLengthCodec.Compress base []).1).BaseCalls = []
    := by
  have hrun : ∀ z : TData, z.length < 2 ^ 64 →
      TAddLengthCodec.Decompress base (TAddLengthCodec.Compress base z).1
        = if z.length = 0 then { Result := .ok 0, Written := [], BaseCalls := [] }
          else
            match base.DoDecompress (base.DoCompress (if z.isEmpty then [] else z))
                z.length with
            | .ok written =>
              { Result := .ok z.length, Written := written,
                BaseCalls := [(base.DoCompress (if z.isEmpty then [] else z), z.length)] }
            | .error e =>
              { Result := .error e, Written := [],
                BaseCalls := [(base.DoCompress (if z.isEmpty then [] else z), z.length)] } := by
    intro z hz
    have hcheck : TAddLengthCodec.Check (TAddLengthCodec.Compress base z).1 = .ok () := by
      simp [TAddLengthCodec.Check, TAddLengthCodec.Compress, WriteUnaligned,
        LittleEndianBytes_length]
    have hread : ReadUnaligned (TAddLengthCodec.Compress base z).1 = z.length := by
      rw [TAddLengthCodec.Compress, ReadUnaligned_WriteUnaligned_append, Nat.mod_eq_of_lt hz]
    have hdrop : (TAddLengthCodec.Compress base z).1.drop 8
        = base.DoCompress (if z.isEmpty then [] else z) := by
      rw [TAddLengthCodec.Compress, drop_WriteUnaligned_append]
    simp only [TAddLengthCodec.Decompress, hcheck, hread, hdrop]
  have hempty := hrun [] (by simp)
  rw [hrun x hlen]
  refine ⟨?_, ?_, ?_, ?_, ?_⟩
  · by_cases hx : x = []
    · simp [hx]
    · have hpos : x.length ≠ 0 := by simpa using hx
      simp [hpos, hx, hbase x hx hlen]
  · by_cases hx : x = []
    · simp [hx]
    · have hpos : x.length ≠ 0 := by simpa using hx
      simp [hpos, hx, hbase x hx hlen]
  · by_cases hx : x = []
    · simp [hx]
    · have hpos : x.length ≠ 0 := by simpa using hx
      simp [hpos, hx, hbase x hx hlen]
  · rw [hempty]
    simp
  · rw [hempty]
    simp

/-- C10, at a concrete byte string and the base codec that stores its input: the three
bytes come back. -/
theorem C10_add_length_codec_witness :
    (NBlockCodecs.TAddLengthCodec.Decompress SampleCodec
        (NBlockCodecs.TAddLengthCodec.Compress SampleCodec [1, 2, 3]).1).Result = .ok 3
      ∧ (NBlockCodecs.TAddLengthCodec.Decompress SampleCodec
        (NBlockCodecs.TAddLengthCodec.Compress SampleCodec [1, 2, 3]).1).Written = [1, 2, 3] :=
  ⟨(C10_add_length_codec_round_trip SampleCodec [1, 2, 3] (by decide) (fun _ _ _ => rfl)).1,
    (C10_add_length_codec_round_trip SampleCodec [1, 2, 3] (by decide) (fun _ _ _ => rfl)).2.1⟩

/-! ## YetiRank pair generation -/

/-- A property of the state that every pass of a loop keeps holds after the loop. -/
theorem foldl_keeps_invariant {σ α : Type} (P : σ → Prop) (f : σ → α → σ)
    (hstep : ∀ s a, P s → P (f s a)) (l : List α) (s : σ) (hs : P s) : P (l.foldl f s) := by
  induction l generalizing s with
  | nil => exact hs
  | cons a l ih => exact ih (f s a) (hstep s a hs)

/-- Adding a weight for a pair whose winner is more relevant keeps the invariant. -/
theorem AddPairWeight_respects {F D : Type} (fp : TFloatArithmetic F D) (relevs : Nat → F)
    (competitorsWeights : Nat → Nat → F) (winner loser : Nat) (pairWeight : F)
    (hinv : RespectsRelevance fp relevs competitorsWeights)
    (hgt : fp.Greater (relevs winner) (relevs loser) = true) :
    RespectsRelevance fp relevs (AddPairWeight fp competitorsWeights winner loser pairWeight) := by
  intro i j hij
  unfold AddPairWeight
  split_ifs with h
  · obtain ⟨hi, hj⟩ := h
    subst hi hj
    rw [hgt] at hij
    cases hij
  · exact hinv i j hij

/-- One pass over a pair of adjacent documents keeps the invariant. -/
theorem PairStep_respects {F D : Type} (fp : TFloatArithmetic F D) (relevs : Nat → F)
    (indices : List Nat) (decaySpeed : D) (state : D × (Nat → Nat → F)) (docId : Nat)
    (hinv : RespectsRelevance fp relevs state.2) :
    RespectsRelevance fp relevs (PairStep fp relevs indices decaySpeed state docId).2 := by
  simp only [PairStep]
  split_ifs with h1 h2
  · exact AddPairWeight_respects fp relevs _ _ _ _ hinv h1
  · exact AddPairWeight_respects fp relevs _ _ _ _ hinv h2
  · exact hinv

/-- One permutation keeps the invariant, whatever the draws and the sorted order. -/
theorem PermutationStep_respects {F D G : Type} (fp : TFloatArithmetic F D)
    (rng : TFastRng64 G D) (SortBy : (Nat → Nat → Bool) → List Nat → List Nat)
    (relevs : Nat → F) (expApproxes : Nat → D) (querySize : Nat) (decaySpeed : D)
    (state : G × (Nat → Nat → F)) (permutationIndex : Nat)
    (hinv : RespectsRelevance fp relevs state.2) :
    RespectsRelevance fp relevs
      (PermutationStep fp rng SortBy relevs expApproxes querySize decaySpeed state
        permutationIndex).2 := by
  simp only [PermutationStep, AccumulatePairWeights]
  exact foldl_keeps_invariant (fun st : D × (Nat → Nat → F) => RespectsRelevance fp relevs st.2)
    (PairStep fp relevs _ decaySpeed)
    (fun st docId h => PairStep_respects fp relevs _ decaySpeed st docId h) _
    (fp.One, state.2) hinv

/-- Every competitor the final loop stores has a winner more relevant than its loser and
a weight that differs from `0`. -/
theorem CollectCompetitors_stored {F D : Type} (fp : TFloatArithmetic F D) (relevs : Nat → F)
    (competitorsWeights : Nat → Nat → F) (querySize : Nat) (permutationCount : Int)
    (hinv : RespectsRelevance fp relevs competitorsWeights) (hperm : 1 ≤ permutationCount)
    (w : Nat) (c : TCompetitor F)
    (hc : c ∈ (CollectCompetitors fp competitorsWeights querySize permutationCount).getD w []) :
    fp.Greater (relevs w) (relevs c.Id) = true ∧ fp.NotEqual c.Weight fp.Zero = true := by
  unfold CollectCompetitors at hc
  by_cases hw : w < querySize
  · rw [List.getD_eq_getElem _ _ (by simpa using hw)] at hc
    simp only [List.getElem_map, List.getElem_range, List.mem_filterMap, List.mem_range] at hc
    obtain ⟨l, _, hl⟩ := hc
    split_ifs at hl with hne
    cases hl
    refine ⟨?_, hne⟩
    by_contra hgt
    have hzero := hinv w l (by simpa using hgt)
    rw [hzero, fp.zero_div_int permutationCount hperm] at hne
    cases hne
  · rw [List.getD_eq_default _ _ (by simpa using hw)] at hc
    cases hc

/-- C11: for every query with `querySize ≥ 0` and `permutationCount ≥ 1`, whatever the
relevances, approxes, decay speed, seed, generator, sorted orders and previous content of
`competitors`, `GenerateYetiRankPairsForQuery` returns and leaves `competitors` with exactly
`querySize` lists; every competitor `{loser, weight}` stored in the list of winner `w`
satisfies `relevs[w] > relevs[loser]` and `weight != 0`; hence no document competes with
itself and no pair appears in both directions. -/
theorem C11_yetirank_pairs_respect_relevance {F D G : Type} (fp : TFloatArithmetic F D)
    (rng : TFastRng64 G D) (SortBy : (Nat → Nat → Bool) → List Nat → List Nat)
    (relevs : Nat → F) (expApproxes : Nat → D) (querySize permutationCount : Int)
    (decaySpeed : D) (randomSeed : Nat) (previous : List (List (TCompetitor F)))
    (hsize : 0 ≤ querySize) (hperm : 1 ≤ permutationCount) :
    ∃ competitors : List (List (TCompetitor F)),
      GenerateYetiRankPairsForQuery fp rng SortBy relevs expApproxes querySize
          permutationCount decaySpeed randomSeed previous = .ok competitors
        ∧ (competitors.length : Int) = querySize
        ∧ (∀ w c, c ∈ competitors.getD w [] →
            fp.Greater (relevs w) (relevs c.Id) = true ∧ fp.NotEqual c.Weight fp.Zero = true)
        ∧ (∀ w c, c ∈ competitors.getD w [] → c.Id ≠ w)
        ∧ (∀ w l c reverse, c ∈ competitors.getD w [] → c.Id = l →
            reverse ∈ competitors.getD l [] → reverse.Id ≠ w) := by
  have hinv : RespectsRelevance fp relevs
      ((List.range permutationCount.toNat).foldl
        (PermutationStep fp rng SortBy relevs expApproxes querySize.toNat decaySpeed)
        (rng.Seed randomSeed, fun _ _ => fp.Zero)).2 :=
    foldl_keeps_invariant (fun st => RespectsRelevance fp relevs st.2) _
      (fun st k h => PermutationStep_respects fp rng SortBy relevs expApproxes _ decaySpeed
        st k h) _ _ (fun _ _ _ => rfl)
  have hnonneg : ¬ querySize < 0 := not_lt.mpr hsize
  have hstored := fun w c hc => CollectCompetitors_stored fp relevs _ querySize.toNat
    permutationCount hinv hperm w c hc
  refine ⟨_, by simp only [GenerateYetiRankPairsForQuery, hnonneg, if_false], ?_, hstored,
    ?_, ?_⟩
  · simp only [CollectCompetitors, List.length_map, List.length_range]
    exact Int.toNat_of_nonneg hsize
  · intro w c hc hid
    have h := (hstored w c hc).1
    rw [hid] at h
    have h2 := fp.greater_asymm _ _ h
    rw [h] at h2
    cases h2
  · intro w l c reverse hc hid hr hrid
    have h1 := (hstored w c hc).1
    have h2 := (hstored l reverse hr).1
    rw [hid] at h1
    rw [hrid] at h2
    have h3 := fp.greater_asymm _ _ h1
    rw [h2] at h3
    cases h3

/-- C11, at a concrete query of four documents and three permutations: the call returns
and leaves four lists. -/
theorem C11_yetirank_pairs_witness :
    ∃ competitors : List (List (TCompetitor Int)),
      GenerateYetiRankPairsForQuery SampleArithmetic SampleRng SampleSort
          (fun i => [3, 1, 2, 1].getD i 0) (fun i => [4, 9, 2, 7].getD i 0) 4 3 2 11 []
          = .ok competitors
        ∧ (competitors.length : Int) = 4 :=
  (C11_yetirank_pairs_respect_relevance SampleArithmetic SampleRng SampleSort
    (fun i => [3, 1, 2, 1].getD i 0) (fun i => [4, 9, 2, 7].getD i 0) 4 3 2 11 []
    (by decide) (by decide)).imp (fun _ h => ⟨h.1, h.2.1⟩)

/-! ## The length check of the length-prefixed codec -/

namespace NBlockCodecs

/-- The number read from little-endian bytes is below `256` to the number of bytes. -/
theorem LittleEndianValue_lt (bytes : TData) : LittleEndianValue bytes < 256 ^ bytes.length := by
  induction bytes with
  | nil => simp [LittleEndianValue]
  | cons b rest ih =>
    have hb : b.val < 256 := b.isLt
    simp only [LittleEndianValue, List.length_cons, pow_succ]
    omega

/-- The load of a `ui64` yields a 64-bit value. -/
theorem ReadUnaligned_lt (input : TData) : ReadUnaligned input < 2 ^ 64 := by
  have h := LittleEndianValue_lt (input.take 8)
  have hlen : (input.take 8).length ≤ 8 := by simp
  have hpow : 256 ^ (input.take 8).length ≤ 256 ^ 8 := Nat.pow_le_pow_right (by decide) hlen
  have h8 : (256 : Nat) ^ 8 = 2 ^ 64 := by norm_num
  rw [ReadUnaligned]
  omega

end NBlockCodecs

/-- C12 as stated fails for `Decompress`: on an input of nine bytes (a stored length of `1`
and one more byte) a base codec whose decompressor throws the data error `too small input`
makes `Decompress` throw that error, although the input is not shorter than 8 bytes. -/
theorem C12_too_small_input_counterexample :
    ¬ ([1, 0, 0, 0, 0, 0, 0, 0, 42] : TData).length < 8
      ∧ (TAddLengthCodec.Decompress SampleRejectingCodec [1, 0, 0, 0, 0, 0, 0, 0, 42]).Result
        = .error (.TDataError "too small input")
      ∧ (TAddLengthCodec.Decompress SampleRejectingCodec [1, 0, 0, 0, 0, 0, 0, 0, 42]).BaseCalls
        = [([42], 1)] :=
  ⟨by decide, rfl, rfl⟩

/-- C12 (amended): for every input, `DecompressedLength` throws the data error
`too small input` if and only if the input is shorter than 8 bytes, and `Decompress` throws
it from its own check, before any call of the base decompressor, if and only if the input
is shorter than 8 bytes; on an input of at least 8 bytes every error of `Decompress` is
the one the base decompressor throws. For an input of at least 8 bytes
`DecompressedLength` returns the 64-bit value stored in its first 8 bytes, which for the
output of `Compress(x)` is `len(x)`. -/
theorem C12_truncated_input_is_rejected (base : TBaseCodec) (input x : TData) :
    (TAddLengthCodec.DecompressedLength input = .error (.TDataError "too small input")
        ↔ input.length < 8)
      ∧ (((TAddLengthCodec.Decompress base input).Result
            = .error (.TDataError "too small input")
          ∧ (TAddLengthCodec.Decompress base input).BaseCalls = [])
        ↔ input.length < 8)
      ∧ (8 ≤ input.length → ∀ e, (TAddLengthCodec.Decompress base input).Result = .error e →
          base.DoDecompress (input.drop 8) (ReadUnaligned input) = .error e)
      ∧ (8 ≤ input.length →
          TAddLengthCodec.DecompressedLength input = .ok (LittleEndianValue (input.take 8))
            ∧ LittleEndianValue (input.take 8) < 2 ^ 64)
      ∧ (x.length < 2 ^ 64 →
          TAddLengthCodec.DecompressedLength (TAddLengthCodec.Compress base x).1
            = .ok x.length) := by
  refine ⟨?_, ?_, ?_, ?_, ?_⟩
  · by_cases h : input.length < 8
    · simp [TAddLengthCodec.DecompressedLength, TAddLengthCodec.Check, h]
    · simp [TAddLengthCodec.DecompressedLength, TAddLengthCodec.Check, h]
  · by_cases h : input.length < 8
    · simp [TAddLengthCodec.Decompress, TAddLengthCodec.Check, h]
    · simp only [TAddLengthCodec.Decompress, TAddLengthCodec.Check, h, if_false, iff_false,
        not_and]
      split_ifs with hzero
      · intro hres
        cases hres
      · cases base.DoDecompress (input.drop 8) (ReadUnaligned input) <;> simp
  · intro h e
    have hlt : ¬ input.length < 8 := not_lt.mpr h
    simp only [TAddLengthCodec.Decompress, TAddLengthCodec.Check, hlt, if_false]
    split_ifs with hzero
    · intro hres
      cases hres
    · cases base.DoDecompress (input.drop 8) (ReadUnaligned input) with
      | error e2 => simp
      | ok written => simp
  · intro h
    have hlt : ¬ input.length < 8 := not_lt.mpr h
    refine ⟨?_, ReadUnaligned_lt input⟩
    simp [TAddLengthCodec.DecompressedLength, TAddLengthCodec.Check, hlt, ReadUnaligned]
  · intro hx
    have hcheck : TAddLengthCodec.Check (TAddLengthCodec.Compress base x).1 = .ok () := by
      simp [TAddLengthCodec.Check, TAddLengthCodec.Compress, WriteUnaligned,
        LittleEndianBytes_length]
    simp only [TAddLengthCodec.DecompressedLength, hcheck]
    rw [TAddLengthCodec.Compress, ReadUnaligned_WriteUnaligned_append, Nat.mod_eq_of_lt hx]
